import Mathlib

/-!
# ReviewAI — formal verification of the core engine against its specification

This development gives a shallow embedding, in Lean 4, of the parts of the
ReviewAI product-review engine that the specification describes:

* `core/currency.py` — price-string parsing and currency detection;
* `core/cache.py` — the two-tier (memory + disk) cache manager;
* `core/price_service.py` — price comparison statistics, deal-quality
  classification and the retailer recommendation heuristic;
* `core/review_generator.py` — the purchase-recommendation priority order
  and the price-confidence label;
* `core/scraping.py` — the product-image relevance filter and the image
  fetching/caching pipeline.

Python floats are modelled as `ℚ`, Python strings as Lean `String`
(or `List Char` where character-level work is needed), `None`-able values as
`Option`, and a call that can raise as an `Except Unit` value.  Each Python
function is translated line by line; the structure fields that the embedded
code never touches (timestamps, logos, explanatory display strings) are
omitted and noted at the corresponding definition.
-/

namespace ReviewAI

/-! ## Generic list/character utilities

These model, in order: Python's substring test `needle in haystack`,
`str.replace(pat, '')` (remove every occurrence, left to right),
`re.split` on a separator class keeping the non-empty fragments, and
`str.strip()`.  `wordsByF` and `replAllF` take an explicit fuel argument so
that they are structurally recursive and hence reducible by the kernel. -/

/-- Substring test: `containsTok n h` is `true` iff `n` occurs contiguously
in `h` (Python's `n in h`). -/
def containsTok (n h : List Char) : Bool :=
  h.tails.any (fun t => n.isPrefixOf t)

/-- Remove every occurrence of `pat` from `l`, scanning left to right
(fuel-driven worker; Python `str.replace(pat, '')`). -/
def replAllF (pat : List Char) : Nat → List Char → List Char
  | 0, l => l
  | _ + 1, [] => []
  | fuel + 1, c :: rest =>
      if pat.isPrefixOf (c :: rest) then
        replAllF pat fuel ((c :: rest).drop pat.length)
      else
        c :: replAllF pat fuel rest

/-- Remove every occurrence of `pat` from `l` (Python `l.replace(pat, '')`). -/
def replAll (pat l : List Char) : List Char :=
  if pat = [] then l else replAllF pat l.length l

/-- Split `l` at the characters satisfying `sep`, keeping the non-empty
fragments (fuel-driven worker; Python `re.split` on a `+`-quantified
separator class, with empty fragments dropped — an empty fragment can never
contain a non-empty token, so dropping them is behaviourally equivalent for
every use in the source). -/
def wordsByF (sep : Char → Bool) : Nat → List Char → List (List Char)
  | 0, _ => []
  | _ + 1, [] => []
  | fuel + 1, c :: rest =>
      if sep c then wordsByF sep fuel rest
      else
        (c :: rest).takeWhile (fun d => ¬ sep d) ::
          wordsByF sep fuel ((c :: rest).dropWhile (fun d => ¬ sep d))

/-- Split `l` at the characters satisfying `sep`, keeping non-empty words. -/
def wordsBy (sep : Char → Bool) (l : List Char) : List (List Char) :=
  wordsByF sep l.length l

/-- Whitespace characters handled by the model of `str.strip()`. -/
def isSpaceChar (c : Char) : Bool :=
  c = ' ' ∨ c = '\t' ∨ c = '\n' ∨ c = '\r'

/-- Python `str.strip()`. -/
def stripChars (l : List Char) : List Char :=
  ((l.dropWhile isSpaceChar).reverse.dropWhile isSpaceChar).reverse

/-- Numeric value of a list of decimal digit characters (most significant
first); `natOfDigits "007" = 7`. -/
def natOfDigits (l : List Char) : Nat :=
  l.foldl (fun a c => 10 * a + (c.toNat - 48)) 0

/-! ## `core/currency.py` — `CurrencyFormatter` -/

/-- `CurrencyFormatter.detect_currency` (currency.py lines 121-137):
best-effort, priority-ordered symbol/code detection on the upper-cased
string, defaulting to `"NGN"`. -/
def detect_currency (s : List Char) : String :=
  let u := s.map Char.toUpper
  if u.contains '₦' || containsTok ['N', 'G', 'N'] u then "NGN"
  else if u.contains '$' || containsTok ['U', 'S', 'D'] u then "USD"
  else if u.contains '€' || containsTok ['E', 'U', 'R'] u then "EUR"
  else if u.contains '£' || containsTok ['G', 'B', 'P'] u then "GBP"
  else if containsTok ['C', 'A', 'D'] u || containsTok ['C', '$'] u then "CAD"
  else if containsTok ['A', 'U', 'D'] u || containsTok ['A', '$'] u then "AUD"
  else "NGN"

/-- A character matched by the regex class `[\d.]`. -/
def isNumCh (c : Char) : Bool :=
  c.isDigit ∨ c = '.'

/-- The first maximal run matched by `re.search(r'[\d.]+', l)`
(empty if there is no match). -/
def numRun (l : List Char) : List Char :=
  (l.dropWhile (fun c => ¬ isNumCh c)).takeWhile isNumCh

/-- Python `float(run)` for a run of digits and dots: defined (and equal to
the decimal value) when the run holds at least one digit and at most one
dot, and a `ValueError` (here `none`) otherwise. -/
def floatOfRun (run : List Char) : Option ℚ :=
  if run.any Char.isDigit ∧ run.count '.' ≤ 1 then
    let ip := run.takeWhile (fun c => c ≠ '.')
    let fp := (run.dropWhile (fun c => c ≠ '.')).drop 1
    some ((natOfDigits ip : ℚ) + (natOfDigits fp : ℚ) / (10 : ℚ) ^ fp.length)
  else
    none

/-- Currency symbols stripped one character at a time
(currency.py line 148). -/
def currencySymbols : List Char := ['₦', '$', '€', '£']

/-- Currency codes stripped as substrings, in source order
(currency.py line 150). -/
def currencyCodes : List (List Char) :=
  [['N', 'G', 'N'], ['U', 'S', 'D'], ['E', 'U', 'R'],
   ['G', 'B', 'P'], ['C', 'A', 'D'], ['A', 'U', 'D']]

/-- The `cleaned` string of `parse_price_with_currency`
(currency.py lines 147-152): symbols, then codes, then commas removed,
then stripped. -/
def cleanedOf (s : List Char) : List Char :=
  let noSyms := s.filter (fun c => ¬ currencySymbols.contains c)
  let noCodes := currencyCodes.foldl (fun acc code => replAll code acc) noSyms
  stripChars (noCodes.filter (fun c => c ≠ ','))

/-- The hyphen-range cut of `parse_price_with_currency`
(currency.py lines 154-155): if a `-` is present, keep the (stripped) part
before the first one. -/
def hyphenCut (l : List Char) : List Char :=
  if l.contains '-' then stripChars (l.takeWhile (fun c => c ≠ '-')) else l

/-- `CurrencyFormatter.parse_price_with_currency`
(currency.py lines 139-162). -/
def parse_price_with_currency (s : String) : Option ℚ × String :=
  if s.data = [] then (none, "NGN")
  else
    let currency := detect_currency s.data
    let run := numRun (hyphenCut (cleanedOf s.data))
    if run = [] then (none, currency)
    else (floatOfRun run, currency)

/-! ## Association lists with Python `dict` semantics

A Python `dict` keeps insertion order; assigning to an existing key updates
the value in place without moving the key, assigning a fresh key appends it
at the end, and `next(iter(d))` is the first (oldest-inserted) key. -/

/-- Lookup in an insertion-ordered association list. -/
def assocFind {α : Type _} (m : List (String × α)) (k : String) : Option α :=
  (m.find? (fun p => p.1 == k)).map Prod.snd

/-- Python `d[k] = v`: update in place if present, append if fresh. -/
def assocSet {α : Type _} (m : List (String × α)) (k : String) (v : α) :
    List (String × α) :=
  if m.any (fun p => p.1 == k) then
    m.map (fun p => if p.1 == k then (k, v) else p)
  else
    m ++ [(k, v)]

/-! ## `core/cache.py` — `CacheManager`

The memory tier is the insertion-ordered dict `self.memory_cache`, the disk
tier is the `.cache` directory, modelled as another association list keyed by
the same cache key.  The md5 hashing of keys is injective in practice and is
modelled as the identity; timestamps are hours represented as `Nat`.  Cached
payloads are modelled as `String` (the JSON round trip is the identity). -/

structure CacheEntry where
  data : String
  timestamp : Nat
  ttl_hours : Nat
deriving DecidableEq, Repr

/-- The two cache tiers of a `CacheManager`. -/
structure CacheState where
  memory : List (String × CacheEntry)
  disk : List (String × CacheEntry)
deriving DecidableEq, Repr

/-- `ttl = ttl_hours or self.config.cache_ttl_hours` (cache.py line 67):
Python `or` falls back when the argument is `None` or `0`. -/
def resolveTtl (ttl_hours : Option Nat) (config_ttl : Nat) : Nat :=
  match ttl_hours with
  | none => config_ttl
  | some 0 => config_ttl
  | some t => t

/-- `CacheManager._is_valid` (cache.py lines 92-105): the entry is valid
while `now < timestamp + ttl`. -/
def cache_is_valid (e : CacheEntry) (now : Nat) : Bool :=
  now < e.timestamp + e.ttl_hours

/-- `CacheManager.set` (cache.py lines 65-90): write the entry to the
memory dict, evict the oldest-inserted memory entry when the dict exceeds
`cache_max_size`, and write the entry to disk. -/
def cache_set (st : CacheState) (key : String) (data : String) (now : Nat)
    (ttl_hours : Option Nat) (config_ttl : Nat) (max_size : Nat) : CacheState :=
  let entry : CacheEntry := ⟨data, now, resolveTtl ttl_hours config_ttl⟩
  let mem1 := assocSet st.memory key entry
  let mem2 := if max_size < mem1.length then mem1.tail else mem1
  { memory := mem2, disk := assocSet st.disk key entry }

/-- The disk half of `CacheManager.get` (cache.py lines 48-63): load the
entry, promote it to the memory dict if valid, delete the file if expired. -/
def cache_get_disk (st : CacheState) (key : String) (now : Nat) :
    Option String × CacheState :=
  match assocFind st.disk key with
  | some e =>
      if cache_is_valid e now then
        (some e.data, { st with memory := assocSet st.memory key e })
      else
        (none, { st with disk := st.disk.eraseP (fun p => p.1 == key) })
  | none => (none, st)

/-- `CacheManager.get` (cache.py lines 36-63): memory first (deleting an
expired memory entry), then disk. -/
def cache_get (st : CacheState) (key : String) (now : Nat) :
    Option String × CacheState :=
  match assocFind st.memory key with
  | some e =>
      if cache_is_valid e now then (some e.data, st)
      else
        cache_get_disk
          { st with memory := st.memory.eraseP (fun p => p.1 == key) } key now
  | none => cache_get_disk st key now

/-! ## `core/price_service.py` — `NigerianPriceService`

`RetailerPrice` and `PriceComparison` are modelled with exactly the fields
the embedded code reads or writes; the display-only fields (`product_url`,
`in_stock`, `last_checked`, `discount_percent`, `original_price`,
`seller_rating`, `price_last_updated`, `currency`, `deal_explanation` — the
last is a formatted percentage string never read back) are omitted. -/

structure RetailerPriceM where
  retailer_id : String
  retailer_name : String
  price_naira : Option ℚ
deriving DecidableEq, Repr

structure PriceComparisonM where
  product_name : String
  prices : List RetailerPriceM
  lowest_price : Option ℚ
  highest_price : Option ℚ
  average_price : Option ℚ
  best_deal_retailer : Option String
  deal_quality : Option String
deriving DecidableEq, Repr

/-- Python `min` over a non-empty list: fold from the head; ties keep the
earlier element. -/
def foldMin (x : ℚ) (xs : List ℚ) : ℚ := xs.foldl min x

/-- Python `max` over a non-empty list. -/
def foldMax (x : ℚ) (xs : List ℚ) : ℚ := xs.foldl max x

/-- `min(valid_prices) if valid_prices else None` (price_service.py 209). -/
def listMinQ (l : List ℚ) : Option ℚ :=
  match l with
  | [] => none
  | x :: xs => some (foldMin x xs)

/-- `max(valid_prices) if valid_prices else None` (price_service.py 210). -/
def listMaxQ (l : List ℚ) : Option ℚ :=
  match l with
  | [] => none
  | x :: xs => some (foldMax x xs)

/-- The sort key `x.price_naira or float('inf')` of price_service.py 212:
`none` stands for infinity (also hit by a literal `0.0` price, which is
falsy in Python). -/
def bestDealKey (p : RetailerPriceM) : Option ℚ :=
  match p.price_naira with
  | none => none
  | some q => if q = 0 then none else some q

/-- Strict `<` on the sort key, with `none` as positive infinity. -/
def keyLt (a b : Option ℚ) : Bool :=
  match a, b with
  | some x, some y => x < y
  | some _, none => true
  | none, _ => false

/-- `min(prices, key=...)` (price_service.py 212): Python `min` returns the
first element attaining the minimal key. -/
def bestDealRetailer (prices : List RetailerPriceM) : Option String :=
  match prices with
  | [] => none
  | p :: ps =>
      some ((ps.foldl (fun b x => if keyLt (bestDealKey x) (bestDealKey b) then x else b) p).retailer_name)

/-- The statistics/classification block of
`NigerianPriceService.get_price_comparison` (price_service.py lines
204-231): derived statistics over the offers with a known price, and the
deal-quality classification when at least two such offers exist. -/
def mkPriceComparison (product_name : String) (prices : List RetailerPriceM) :
    PriceComparisonM :=
  let valid_prices := prices.filterMap (fun p => p.price_naira)
  let lowest := listMinQ valid_prices
  let average :=
    match valid_prices with
    | [] => none
    | _ => some (valid_prices.sum / valid_prices.length)
  let base : PriceComparisonM :=
    { product_name := product_name
      prices := prices
      lowest_price := lowest
      highest_price := listMaxQ valid_prices
      average_price := average
      best_deal_retailer := bestDealRetailer prices
      deal_quality := none }
  if 2 ≤ valid_prices.length then
    let lowQ := lowest.getD 0
    let avgQ := average.getD 0
    let spread_pct := if avgQ ≠ 0 then ((avgQ - lowQ) / avgQ) * 100 else 0
    { base with
      deal_quality :=
        some (if 20 ≤ spread_pct then "excellent"
              else if 10 ≤ spread_pct then "good"
              else "normal") }
  else base

/-- The retailer loop of `get_price_comparison` (price_service.py lines
172-182): each adapter call either raises (`Except.error`, caught and
skipped), returns no offer, or contributes one offer. -/
def collectRetailerPrices (results : List (Except Unit (Option RetailerPriceM))) :
    List RetailerPriceM :=
  results.foldl
    (fun acc r =>
      match r with
      | .ok (some p) => acc ++ [p]
      | _ => acc)
    []

/-- The cache-miss path of `NigerianPriceService.get_price_comparison`
(price_service.py lines 160-236): Nigerian retailer adapters, then the
RapidAPI global block (Amazon plus multi-platform, merged into one list;
`Except.error` models the whole block raising, which line 200 catches), then
the statistics block.  The function is total: adapter failures never
escape to the caller. -/
def get_price_comparison_fresh (product_name : String)
    (retailerResults : List (Except Unit (Option RetailerPriceM)))
    (globalResults : Except Unit (List RetailerPriceM)) : PriceComparisonM :=
  let prices :=
    collectRetailerPrices retailerResults ++
      (match globalResults with
       | .ok l => l
       | .error _ => [])
  mkPriceComparison product_name prices

/-- `Constants.NIGERIAN_RETAILERS` (config.py lines 65-258), restricted to
the fields `get_recommended_retailer` reads: `(retailer_id, (trust_score,
trust_note))`. -/
def retailerTrustTable : List (String × Nat × String) :=
  [("jumia", 4, "Established e-commerce platform with buyer protection and return policy"),
   ("konga", 4, "Major Nigerian retailer with warranty support and physical stores"),
   ("slot", 5, "Authorized dealer with nationwide physical stores and official warranty"),
   ("pointek", 4, "Established electronics retailer with good customer service"),
   ("jiji", 2, "Classifieds marketplace - verify seller reputation before purchase"),
   ("kilimall", 3, "Online marketplace - check seller ratings before purchase"),
   ("kara", 4, "Established appliance and electronics retailer"),
   ("3chub", 4, "Authorized technology retailer with product warranty"),
   ("fouani", 5, "Official LG distributor in Nigeria with manufacturer warranty"),
   ("computervillage", 3, "Online platform - verify specific vendor reputation"),
   ("computervillage_ng", 3, "Online platform - verify specific vendor reputation"),
   ("komputervillage", 3, "Online platform - verify specific vendor reputation"),
   ("spar", 4, "Major retail chain with nationwide presence"),
   ("shoprite", 4, "Major retail chain with warranty support"),
   ("payporte", 3, "Nigerian online retailer with buyer protection"),
   ("buyright", 4, "Electronics specialist with product warranty"),
   ("megaplaza", 4, "Major shopping center with multiple brands"),
   ("hubmart", 4, "Nigerian supermarket chain with quality products"),
   ("parknshop", 4, "Retail chain with physical stores"),
   ("supermart", 4, "Online supermarket with delivery services"),
   ("olist", 3, "Online marketplace - check seller ratings"),
   ("superonline", 3, "Online electronics store"),
   ("game", 4, "Major South African retail chain operating in Nigeria"),
   ("dealdey", 3, "Nigerian deals and discount platform")]

/-- `NIGERIAN_RETAILERS.get(id, {}).get('trust_score', 3)`
(price_service.py line 258). -/
def trust_score_of (retailer_id : String) : Nat :=
  match retailerTrustTable.find? (fun p => p.1 == retailer_id) with
  | some p => p.2.1
  | none => 3

/-- `NIGERIAN_RETAILERS.get(id, {}).get('trust_note', '')`
(price_service.py line 259). -/
def trust_note_of (retailer_id : String) : String :=
  match retailerTrustTable.find? (fun p => p.1 == retailer_id) with
  | some p => p.2.2
  | none => ""

/-- The price of an offer that passed the `price_naira is not None` filter
(price_service.py line 243). -/
def priceOf (p : RetailerPriceM) : ℚ := p.price_naira.getD 0

/-- The per-offer score of `get_recommended_retailer` (price_service.py
lines 255-266): `combined_score = (trust/5)*0.4 + normalized_price*0.6`. -/
def combinedScore (min_price price_range : ℚ) (p : RetailerPriceM) : ℚ :=
  let trust_score : ℚ := trust_score_of p.retailer_id
  let normalized_price :=
    if 0 < price_range then 1 - ((priceOf p - min_price) / price_range)
    else 1
  (trust_score / 5) * 0.4 + normalized_price * 0.6

/-- `best_reason` computed when an offer becomes the current best
(price_service.py lines 272-282). -/
def recommendationReasonFor (p : RetailerPriceM) (min_price : ℚ) : String :=
  let is_cheapest := priceOf p = min_price
  let is_highly_trusted := 4 ≤ trust_score_of p.retailer_id
  if is_cheapest ∧ is_highly_trusted then
    "Best price among trusted retailers with official warranty support"
  else if is_cheapest then
    "Lowest price available - verify seller reputation before purchase"
  else if is_highly_trusted then
    "Highly trusted authorized retailer with reliable warranty and support"
  else
    "Good balance of competitive pricing and retailer reliability"

/-- The selection loop of `get_recommended_retailer` (price_service.py lines
251-282), with state `(best_retailer, best_score, best_reason)` starting at
`(None, -1, "")`; an offer replaces the current best only when its score is
strictly greater. -/
def recSelect (min_price price_range : ℚ) :
    List RetailerPriceM → Option RetailerPriceM × ℚ × String →
      Option RetailerPriceM × ℚ × String
  | [], acc => acc
  | p :: rest, (best, best_score, best_reason) =>
      let s := combinedScore min_price price_range p
      if best_score < s then
        recSelect min_price price_range rest (some p, s, recommendationReasonFor p min_price)
      else
        recSelect min_price price_range rest (best, best_score, best_reason)

structure RecommendedRetailerM where
  retailer_name : String
  retailer_id : String
  price_naira : Option ℚ
  trust_score : Nat
  trust_note : String
  recommendation_reason : String
deriving DecidableEq, Repr

/-- `NigerianPriceService.get_recommended_retailer` (price_service.py lines
238-296). -/
def get_recommended_retailer (pc : PriceComparisonM) : Option RecommendedRetailerM :=
  if pc.prices.isEmpty then none
  else
    match pc.prices.filter (fun p => p.price_naira.isSome) with
    | [] => none
    | v0 :: vs =>
        let valid_prices := v0 :: vs
        let min_price := foldMin (priceOf v0) (vs.map priceOf)
        let max_price := foldMax (priceOf v0) (vs.map priceOf)
        let price_range := if min_price < max_price then max_price - min_price else 1
        match recSelect min_price price_range valid_prices (none, -1, "") with
        | (some b, _, best_reason) =>
            some { retailer_name := b.retailer_name
                   retailer_id := b.retailer_id
                   price_naira := b.price_naira
                   trust_score := trust_score_of b.retailer_id
                   trust_note := trust_note_of b.retailer_id
                   recommendation_reason := best_reason }
        | (none, _, _) => none

/-- `min_price` of `get_recommended_retailer` (price_service.py line 247). -/
def minPriceOf (v0 : RetailerPriceM) (vs : List RetailerPriceM) : ℚ :=
  foldMin (priceOf v0) (vs.map priceOf)

/-- `max_price` of `get_recommended_retailer` (price_service.py line 248). -/
def maxPriceOf (v0 : RetailerPriceM) (vs : List RetailerPriceM) : ℚ :=
  foldMax (priceOf v0) (vs.map priceOf)

/-- `price_range` of `get_recommended_retailer` (price_service.py line 249). -/
def rangeOf (v0 : RetailerPriceM) (vs : List RetailerPriceM) : ℚ :=
  if minPriceOf v0 vs < maxPriceOf v0 vs then maxPriceOf v0 vs - minPriceOf v0 vs else 1

/-! ## `core/review_generator.py` — recommendation and confidence -/

/-- `PurchaseTimingAdvice` restricted to the fields
`_compute_purchase_recommendation` reads. -/
structure TimingAdviceM where
  recommendation : String
  reasoning : String
deriving DecidableEq, Repr

/-- `RedFlagReport` restricted to what `has_critical_issues` reads: the
severities of the collected red flags (models.py lines 225-238). -/
structure RedFlagReportM where
  flag_severities : List String
deriving DecidableEq, Repr

/-- `RedFlagReport.has_critical_issues` (models.py lines 236-238). -/
def has_critical_issues (r : RedFlagReportM) : Bool :=
  r.flag_severities.any (fun s => s == "high")

/-- `red_flag_report and red_flag_report.has_critical_issues`
(review_generator.py line 830). -/
def critical_flag (red_flag_report : Option RedFlagReportM) : Bool :=
  match red_flag_report with
  | some r => has_critical_issues r
  | none => false

/-- The price-signal test of review_generator.py lines 845-846:
a comparison with a known lowest price whose `deal_quality` is `None` or
`'excellent'`. -/
def local_deal_signal (price_comparison : Option PriceComparisonM) : Bool :=
  match price_comparison with
  | some c => c.lowest_price.isSome && (c.deal_quality.isNone || c.deal_quality == some "excellent")
  | none => false

/-- The part of `_compute_purchase_recommendation` after the timing check
(review_generator.py lines 843-862): price signal, then data-quality
fallback, then the conservative default. -/
def recommendation_after_timing (price_comparison : Option PriceComparisonM)
    (data_quality : Option String) : String × List String :=
  if local_deal_signal price_comparison then
    ("buy_now", ["Good local deal available"])
  else if data_quality == some "good" then
    ("buy_now", ["Sufficient high-quality sources available"])
  else if data_quality == some "limited" then
    ("consider_alternatives", ["Some coverage found; consider waiting for better deals"])
  else
    ("consider_alternatives",
     ["Insufficient up-to-date data; consider alternatives or wait for more information"])

/-- `EnhancedReviewGenerator._compute_purchase_recommendation`
(review_generator.py lines 819-862). -/
def compute_purchase_recommendation (timing_advice : Option TimingAdviceM)
    (red_flag_report : Option RedFlagReportM)
    (price_comparison : Option PriceComparisonM)
    (data_quality : Option String) : String × List String :=
  if critical_flag red_flag_report then
    ("avoid", ["Critical issues reported in user data or recalls"])
  else
    match timing_advice with
    | some t =>
        if t.recommendation == "buy_now" then
          ("buy_now", ["Timing advice: " ++ t.reasoning])
        else if t.recommendation == "wait" then
          ("wait", ["Timing advice: " ++ t.reasoning])
        else recommendation_after_timing price_comparison data_quality
    | none => recommendation_after_timing price_comparison data_quality

/-- The timing advisor's signal, when advice is present. -/
def timing_signal (timing_advice : Option TimingAdviceM) : Option String :=
  timing_advice.map (fun adv => adv.recommendation)

/-- Whether the timing advice carries an explicit buy/wait signal
(review_generator.py lines 835-841). -/
def timing_explicit (timing_advice : Option TimingAdviceM) : Bool :=
  match timing_advice with
  | some adv => adv.recommendation == "buy_now" || adv.recommendation == "wait"
  | none => false

/-- The tail of the claimed priority order: deal quality classified
`excellent` → buy now, else the data-quality default.  Written from the
spec's words, for comparison with the source translation. -/
def spec_recommendation_tail (price_comparison : Option PriceComparisonM)
    (data_quality : Option String) : String :=
  if (match price_comparison with
      | some c => c.deal_quality == some "excellent"
      | none => false) then "buy_now"
  else if data_quality == some "good" then "buy_now"
  else "consider_alternatives"

/-- The purchase-recommendation outcome as the claim's words describe it
(spec: critical red flags → avoid; else explicit timing signal; else a deal
quality classified `excellent` → buy now; else the data-quality default).
Written from the spec, for comparison with the source translation. -/
def spec_purchase_recommendation (timing_advice : Option TimingAdviceM)
    (red_flag_report : Option RedFlagReportM)
    (price_comparison : Option PriceComparisonM)
    (data_quality : Option String) : String :=
  if critical_flag red_flag_report then "avoid"
  else
    match timing_advice with
    | some t =>
        if t.recommendation == "buy_now" then "buy_now"
        else if t.recommendation == "wait" then "wait"
        else spec_recommendation_tail price_comparison data_quality
    | none => spec_recommendation_tail price_comparison data_quality

/-- `has_local = bool(price_comparison and price_comparison.prices)`
(review_generator.py line 810). -/
def has_local_offers (price_comparison : Option PriceComparisonM) : Bool :=
  match price_comparison with
  | some c => !c.prices.isEmpty
  | none => false

/-- `local_count = len(price_comparison.prices) if price_comparison and
price_comparison.prices else 0` (review_generator.py line 811). -/
def local_offer_count (price_comparison : Option PriceComparisonM) : Nat :=
  match price_comparison with
  | some c => if c.prices.isEmpty then 0 else c.prices.length
  | none => 0

/-- `EnhancedReviewGenerator._compute_price_confidence`
(review_generator.py lines 802-817). -/
def compute_price_confidence (global_amount : Option ℚ)
    (price_comparison : Option PriceComparisonM)
    (price_naira : Option ℚ) : String :=
  if global_amount.isSome && decide (2 ≤ local_offer_count price_comparison) &&
      price_naira.isSome then "high"
  else if global_amount.isSome || has_local_offers price_comparison then "medium"
  else "low"

/-- The price-confidence label as the claim's words describe it: `high` iff
both an explicit global price and at least 2 retailer offers are present,
`medium` iff exactly one of those two conditions holds, `low` otherwise.
Written from the spec, for comparison with the source translation. -/
def spec_price_confidence (global_amount : Option ℚ)
    (price_comparison : Option PriceComparisonM) : String :=
  let condA := global_amount.isSome
  let condB :=
    decide (2 ≤ (match price_comparison with
                 | some c => c.prices.length
                 | none => 0))
  if condA && condB then "high"
  else if condA || condB then "medium"
  else "low"

/-! ## `core/scraping.py` — `ProductImageFetcher` -/

/-- `combined = (img_url + ' ' + (alt_text or '')).lower()`
(scraping.py line 392). -/
def combinedText (img_url alt_text : String) : List Char :=
  (img_url.data ++ ' ' :: alt_text.data).map Char.toLower

/-- The lifestyle/accessory rejection keywords (scraping.py lines 394-403). -/
def lifestyle_keywords : List String :=
  ["person", "people", "man", "woman", "model", "hand", "holding",
   "using", "portrait", "face", "wallpaper", "lockscreen", "screenshot",
   "girl", "boy", "kid", "child", "user", "customer", "lifestyle",
   "stock-photo", "stock_photo", "shutterstock", "getty", "istock",
   "case", "cover", "accessory", "accessories", "charger", "cable",
   "screen-protector", "comparison", "vs-", "-vs-", "versus",
   "unboxing", "box-", "packaging", "review-thumbnail", "concept",
   "render", "leaked", "rumor", "mockup", "mock-up"]

/-- A character matched by the regex class `[a-z0-9]` (the product name is
lower-cased before tokenization). -/
def isAlnumLower (c : Char) : Bool :=
  ('a' ≤ c ∧ c ≤ 'z') ∨ ('0' ≤ c ∧ c ≤ '9')

/-- `[t for t in re.split(r"[^a-z0-9]+", product_lower) if len(t) >= 1]`
(scraping.py line 409). -/
def name_tokens (product_name : String) : List (List Char) :=
  wordsBy (fun c => ¬ isAlnumLower c) (product_name.data.map Char.toLower)

/-- The numeric-token filter (scraping.py lines 411-416): all-digit tokens,
or digit-containing tokens of length at least 2. -/
def isNumericToken (t : List Char) : Bool :=
  (t.all Char.isDigit && decide (1 ≤ t.length)) ||
    (t.any Char.isDigit && decide (2 ≤ t.length))

/-- A separator of the regex class `[\s/_\-]` (scraping.py line 422). -/
def wordSeparator (c : Char) : Bool :=
  isSpaceChar c || c = '/' || c = '_' || c = '-'

/-- The per-token check of scraping.py lines 419-427: the token occurs in
`combined`, or in one of the `[\s/_\-]+`-separated words of `combined`
(the second test is subsumed by the first, since every word is a contiguous
fragment of `combined`). -/
def numericTokenPresent (nt combined : List Char) : Bool :=
  containsTok nt combined ||
    (wordsBy wordSeparator combined).any (fun w => containsTok nt w)

/-- The known-brand vocabulary (scraping.py lines 429-435). -/
def known_brands : List String :=
  ["iphone", "samsung", "galaxy", "pixel", "macbook", "ipad", "airpods",
   "sony", "lg", "dell", "hp", "lenovo", "asus", "xiaomi", "redmi",
   "oppo", "vivo", "realme", "infinix", "tecno", "itel", "huawei",
   "oneplus", "nokia", "motorola", "nintendo", "switch", "playstation",
   "xbox", "bose", "jbl", "canon", "nikon", "gopro", "dyson", "apple"]

/-- The brand check of scraping.py lines 437-444: some brand token must
occur in `combined`, with the Apple fallback for iPhone/iPad/MacBook
products. -/
def brandCheckPasses (all_tokens : List (List Char))
    (product_lower combined : List Char) : Bool :=
  let brand_tokens := all_tokens.filter (fun t => known_brands.any (fun b => b.data == t))
  if brand_tokens.isEmpty then true
  else
    let brand_found := brand_tokens.any (fun bt => containsTok bt combined)
    if brand_found then true
    else if containsTok "iphone".data product_lower ||
        containsTok "ipad".data product_lower ||
        containsTok "macbook".data product_lower then
      containsTok "apple".data combined
    else false

/-- `ProductImageFetcher._is_product_image` (scraping.py lines 387-454).
The trailing variant-keyword check (lines 446-452) only writes a debug log
and never changes the result. -/
def is_product_image (img_url alt_text product_name : String) : Bool :=
  if img_url.data = [] then false
  else
    let combined := combinedText img_url alt_text
    if lifestyle_keywords.any (fun k => containsTok k.data combined) then false
    else
      let product_lower := product_name.data.map Char.toLower
      let all_tokens := name_tokens product_name
      let numeric_tokens := all_tokens.filter isNumericToken
      if !numeric_tokens.all (fun nt => numericTokenPresent nt combined) then false
      else brandCheckPasses all_tokens product_lower combined

/-- `ProductImage` restricted to the fields the fetch/dedup/cache pipeline
reads (`url`, `thumbnail_url`); ranking reads more fields, so the ranking
score is abstracted as a parameter below. -/
structure ProductImageM where
  url : String
  thumbnail_url : Option String
deriving DecidableEq, Repr

/-- Worker for `_dedup` (scraping.py lines 275-283), carrying the `seen`
set of `(url, thumbnail_url)` keys. -/
def dedupAux : List ProductImageM → List (String × String) → List ProductImageM
  | [], _ => []
  | im :: rest, seen =>
      let key := (im.url, im.thumbnail_url.getD "")
      if ¬ seen.contains key ∧ im.url ≠ "" then im :: dedupAux rest (key :: seen)
      else dedupAux rest seen

/-- `_dedup` (scraping.py lines 275-285): drop images with an empty URL and
keep the first occurrence of each `(url, thumbnail_url)` key. -/
def dedupImages (imgs : List ProductImageM) : List ProductImageM :=
  dedupAux imgs []

/-- Stable descending insertion for the model of `sorted(..., reverse=True)`. -/
def insertDescBy (score : ProductImageM → ℤ) (x : ProductImageM) :
    List ProductImageM → List ProductImageM
  | [] => [x]
  | y :: ys => if score y ≤ score x then x :: y :: ys else y :: insertDescBy score x ys

/-- `_rank_images` (scraping.py lines 602-651): a stable sort of the images
by descending relevance score.  The score function (brand domains, preferred
hosts, URL tokens, megapixels) depends on `urlparse` and is abstracted as
the parameter `score`; only the ordering behaviour is modelled. -/
def rank_images (score : ProductImageM → ℤ) (imgs : List ProductImageM) :
    List ProductImageM :=
  imgs.foldr (insertDescBy score) []

/-- `ProductImageFetcher.fetch_product_images` (scraping.py lines 238-296),
as a function of the image cache (key `"images_" + product_name`, md5
modelled as identity), the concatenated source candidates (brand site,
retailers, DuckDuckGo, Bing — already filtered by `_is_product_image`
inside the fetchers), and the ranking score.  Python's truthiness test
`if cached_images:` treats a cached empty list as a miss; an empty result
after dedup/rank is returned without touching the cache. -/
def fetch_product_images (score : ProductImageM → ℤ)
    (cache : List (String × List ProductImageM)) (product_name : String)
    (candidates : List ProductImageM) (max_images : Nat) :
    List ProductImageM × List (String × List ProductImageM) :=
  let key := "images_" ++ product_name
  let fetched :=
    let images := rank_images score (dedupImages candidates)
    if images.isEmpty then (images.take max_images, cache)
    else (images.take max_images, assocSet cache key (images.take max_images))
  match assocFind cache key with
  | some imgs => if imgs.isEmpty then fetched else (imgs, cache)
  | none => fetched

/-! ## Concrete instances used by the theorems below -/

/-- A comparison with a single priced offer: the lowest price is known but
`deal_quality` is never classified (the `≥ 2` guard fails). -/
def onePricePC : PriceComparisonM :=
  mkPriceComparison "iPhone 15" [⟨"jumia", "Jumia Nigeria", some 100⟩]

/-- A comparison with two offers whose prices could not be parsed. -/
def twoUnpricedPC : PriceComparisonM :=
  mkPriceComparison "iPhone 15" [⟨"a1", "Shop A", none⟩, ⟨"a2", "Shop B", none⟩]

/-- The three mock offers of the spec's deal-quality example
(prices 100, 120, 200 in the reference currency). -/
def threeOffers : List RetailerPriceM :=
  [⟨"jumia", "Jumia Nigeria", some 100⟩,
   ⟨"konga", "Konga", some 120⟩,
   ⟨"slot", "Slot Nigeria", some 200⟩]

/-- The two offers of the spec's retailer-recommendation example:
(price 100, trust 3) and (price 120, trust 5). -/
def offerTrust3 : RetailerPriceM := ⟨"kilimall", "Kilimall Nigeria", some 100⟩

def offerTrust5 : RetailerPriceM := ⟨"slot", "Slot Nigeria", some 120⟩

def entry_a : CacheEntry := ⟨"va", 0, 168⟩

def entry_b : CacheEntry := ⟨"vb", 0, 168⟩

/-- A cache state whose memory tier holds one entry more than
`cache_max_size = 1` allows, with key `"b"` oldest-inserted.  It is produced
by the public cache API itself (see `cache_overfull_state_reachable`):
`get` promotes a disk entry into the memory tier without enforcing the
bound. -/
def overfullState : CacheState :=
  ⟨[("b", entry_b), ("a", entry_a)], [("a", entry_a), ("b", entry_b)]⟩

end ReviewAI

namespace ReviewAI

/-! # Theorems -/

/-! ## Generic lemmas about the string utilities -/

theorem containsTok_iff_occurs (n h : List Char) :
    containsTok n h = true ↔ n <:+: h := by
  constructor
  · intro hc
    rcases List.any_eq_true.mp hc with ⟨t, ht, hp⟩
    exact ((List.isPrefixOf_iff_prefix.mp hp).isInfix).trans
      ((List.mem_tails t h).mp ht).isInfix
  · intro hi
    rcases List.infix_iff_prefix_suffix.mp hi with ⟨t, hp, hs⟩
    exact List.any_eq_true.mpr
      ⟨t, (List.mem_tails t h).mpr hs, List.isPrefixOf_iff_prefix.mpr hp⟩

theorem wordsByF_fragment (sep : Char → Bool) :
    ∀ (fuel : Nat) (l w : List Char), w ∈ wordsByF sep fuel l → w <:+: l := by
  intro fuel
  induction fuel with
  | zero => intro l w hw; simp [wordsByF] at hw
  | succ n ih =>
      intro l w hw
      cases l with
      | nil => simp [wordsByF] at hw
      | cons c rest =>
          rw [wordsByF] at hw
          by_cases hc : sep c
          · rw [if_pos hc] at hw
            exact (ih rest w hw).trans (List.infix_cons (List.infix_refl rest))
          · rw [if_neg hc] at hw
            rcases List.mem_cons.mp hw with h | h
            · exact h ▸ ( List.takeWhile_prefix _).isInfix
            · exact (ih _ w h).trans ( List.dropWhile_suffix _).isInfix

theorem wordsBy_fragment (sep : Char → Bool) (l w : List Char)
    (hw : w ∈ wordsBy sep l) : w <:+: l :=
  wordsByF_fragment sep l.length l w hw

/-! ## Claim C8 — the price parser -/

/-- C8: the price parser strips currency symbols/codes and thousands
separators, takes the first number of a hyphenated range, detects the
currency by priority-ordered symbol/code match defaulting to `"NGN"`, and
returns `(none, detected)` when no numeric token is found; concretely,
`parse("₦1,234,000") = (1234000, NGN)`, `parse("$1,999 - $2,099") =
(1999, USD)` and `parse("") = (none, NGN)`. -/
theorem claim_C8_price_parsing :
    parse_price_with_currency "₦1,234,000" = (some 1234000, "NGN") ∧
    parse_price_with_currency "$1,999 - $2,099" = (some 1999, "USD") ∧
    parse_price_with_currency "" = (none, "NGN") ∧
    (∀ s : String, s ≠ "" → (parse_price_with_currency s).2 = detect_currency s.data) ∧
    (∀ s : String, numRun (hyphenCut (cleanedOf s.data)) = [] →
      (parse_price_with_currency s).1 = none) := by
  refine ⟨?_, ?_, ?_, ?_, ?_⟩
  · have hrun : numRun (hyphenCut (cleanedOf "₦1,234,000".data)) =
        ['1', '2', '3', '4', '0', '0', '0'] := by decide
    have h1 : natOfDigits ['1', '2', '3', '4', '0', '0', '0'] = 1234000 := by decide
    have h2 : natOfDigits [] = 0 := by decide
    simp +decide [parse_price_with_currency, hrun, floatOfRun, h1, h2]
  · have hrun : numRun (hyphenCut (cleanedOf "$1,999 - $2,099".data)) =
        ['1', '9', '9', '9'] := by decide
    have h1 : natOfDigits ['1', '9', '9', '9'] = 1999 := by decide
    have h2 : natOfDigits [] = 0 := by decide
    simp +decide [parse_price_with_currency, hrun, floatOfRun, h1, h2]
  · simp +decide [parse_price_with_currency]
  · intro s hs
    rw [parse_price_with_currency]
    split
    · exact absurd (String.ext (by assumption)) hs
    · dsimp only
      split <;> rfl
  · intro s h
    rw [parse_price_with_currency]
    split
    · rfl
    · dsimp only
      rw [if_pos h]

/-- Witness for C8: the hypothesis-bearing components instantiated at the
concrete input `"abc"`, which has no numeric token. -/
theorem claim_C8_witness :
    (parse_price_with_currency "abc").2 = detect_currency "abc".data ∧
    (parse_price_with_currency "abc").1 = none := by
  refine ⟨claim_C8_price_parsing.2.2.2.1 "abc" (by decide),
    claim_C8_price_parsing.2.2.2.2 "abc" (by decide)⟩

/-! ## Claim C3 — the cache write path -/

theorem find?_map_update {α : Type _} (m : List (String × α)) (k : String) (v : α)
    (h : m.any (fun p => p.1 == k) = true) :
    (m.map (fun p => if p.1 == k then (k, v) else p)).find? (fun p => p.1 == k) =
      some (k, v) := by
  induction m with
  | nil => simp at h
  | cons hd tl ih =>
      by_cases hk : hd.1 == k
      · simp [ List.find?, hk]
      · rw [List.any_cons] at h
        simp only [hk, Bool.false_or] at h
        simpa [ List.find?, hk] using ih h

theorem find?_none_of_not_any {α : Type _} (m : List (String × α)) (k : String)
    (h : m.any (fun p => p.1 == k) = false) :
    m.find? (fun p => p.1 == k) = none := by
  induction m with
  | nil => rfl
  | cons hd tl ih =>
      rw [List.any_cons] at h
      rcases Bool.or_eq_false_iff.mp h with ⟨h1, h2⟩
      simpa [ List.find?, h1] using ih h2

theorem assocFind_assocSet {α : Type _} (m : List (String × α)) (k : String) (v : α) :
    assocFind (assocSet m k v) k = some v := by
  by_cases h : m.any (fun p => p.1 == k)
  · rw [assocSet, if_pos h, assocFind, find?_map_update m k v h]
    rfl
  · rw [assocSet, if_neg h, assocFind, List.find?_append,
      find?_none_of_not_any m k (Bool.of_not_eq_true h)]
    simp [ List.find?]

theorem keys_all_ne_tail {α : Type _} (m : List (String × α)) (k : String)
    (h : m.any (fun p => p.1 == k) = false) :
    m.tail.any (fun p => p.1 == k) = false := by
  cases m with
  | nil => rfl
  | cons hd tl =>
      rw [List.any_cons] at h
      exact (Bool.or_eq_false_iff.mp h).2

/-- C3 (amended): `set` writes the entry to both tiers, and when the
memory tier then exceeds `cache_max_size` exactly the oldest-inserted entry
(the dict's first entry) is dropped; provided the tier held at most
`cache_max_size` entries before the call — the invariant `set` itself
preserves — and the maximum is at least 1, the just-written entry survives
in both tiers. -/
theorem claim_C3_cache_set (st : CacheState) (key data : String) (now : Nat)
    (ttl_hours : Option Nat) (config_ttl max_size : Nat)
    (hlen : st.memory.length ≤ max_size) (hmax : 1 ≤ max_size) :
    assocFind (cache_set st key data now ttl_hours config_ttl max_size).memory key =
      some ⟨data, now, resolveTtl ttl_hours config_ttl⟩ ∧
    assocFind (cache_set st key data now ttl_hours config_ttl max_size).disk key =
      some ⟨data, now, resolveTtl ttl_hours config_ttl⟩ ∧
    ((assocSet st.memory key ⟨data, now, resolveTtl ttl_hours config_ttl⟩).length ≤ max_size ∧
      (cache_set st key data now ttl_hours config_ttl max_size).memory =
        assocSet st.memory key ⟨data, now, resolveTtl ttl_hours config_ttl⟩ ∨
     (assocSet st.memory key ⟨data, now, resolveTtl ttl_hours config_ttl⟩).length = max_size + 1 ∧
      (cache_set st key data now ttl_hours config_ttl max_size).memory =
        (assocSet st.memory key ⟨data, now, resolveTtl ttl_hours config_ttl⟩).tail) := by
  set e : CacheEntry := ⟨data, now, resolveTtl ttl_hours config_ttl⟩ with he
  by_cases hmem : st.memory.any (fun p => p.1 == key)
  · -- the key is already present: in-place update, no growth, no eviction
    have hlen1 : (assocSet st.memory key e).length ≤ max_size := by
      rw [assocSet, if_pos hmem, List.length_map]
      exact hlen
    have hnoev : (cache_set st key data now ttl_hours config_ttl max_size).memory =
        assocSet st.memory key e := by
      rw [cache_set]
      dsimp only
      rw [← he, if_neg (by omega)]
    refine ⟨?_, ?_, Or.inl ⟨hlen1, hnoev⟩⟩
    · rw [hnoev]
      exact assocFind_assocSet st.memory key e
    · exact assocFind_assocSet st.disk key e
  · -- fresh key: appended at the tail of the dict
    have hmemf : st.memory.any (fun p => p.1 == key) = false :=
      Bool.of_not_eq_true hmem
    have hset : assocSet st.memory key e = st.memory ++ [(key, e)] := by
      rw [assocSet, if_neg hmem]
    have hlen1 : (assocSet st.memory key e).length = st.memory.length + 1 := by
      rw [hset]
      simp
    by_cases hfits : st.memory.length + 1 ≤ max_size
    · have hnoev : (cache_set st key data now ttl_hours config_ttl max_size).memory =
          assocSet st.memory key e := by
        rw [cache_set]
        dsimp only
        rw [← he, if_neg (by omega)]
      refine ⟨?_, assocFind_assocSet st.disk key e, Or.inl ⟨by omega, hnoev⟩⟩
      rw [hnoev]
      exact assocFind_assocSet st.memory key e
    · -- the bound is exceeded: the dict head (oldest entry) is evicted
      have hfull : st.memory.length = max_size := by omega
      have hev : (cache_set st key data now ttl_hours config_ttl max_size).memory =
          (assocSet st.memory key e).tail := by
        rw [cache_set]
        dsimp only
        rw [← he, if_pos (by omega)]
      refine ⟨?_, assocFind_assocSet st.disk key e, Or.inr ⟨by omega, hev⟩⟩
      rw [hev, hset]
      cases hm : st.memory with
      | nil => simp [hm] at hfull; omega
      | cons hd tl =>
          have htl : tl.any (fun p => p.1 == key) = false := by
            have := keys_all_ne_tail st.memory key hmemf
            rw [hm] at this
            exact this
          rw [List.cons_append, List.tail_cons, assocFind, List.find?_append,
            find?_none_of_not_any tl key htl]
          simp [ List.find?]

/-- Witness for C3 (amended): a set call on an empty cache with
`cache_max_size = 1`. -/
theorem claim_C3_witness :
    assocFind (cache_set ⟨[], []⟩ "k" "v" 0 none 168 1).memory "k" =
      some ⟨"v", 0, resolveTtl none 168⟩ ∧
    assocFind (cache_set ⟨[], []⟩ "k" "v" 0 none 168 1).disk "k" =
      some ⟨"v", 0, resolveTtl none 168⟩ ∧
    ((assocSet (CacheState.memory ⟨[], []⟩) "k" ⟨"v", 0, resolveTtl none 168⟩).length ≤ 1 ∧
      (cache_set ⟨[], []⟩ "k" "v" 0 none 168 1).memory =
        assocSet (CacheState.memory ⟨[], []⟩) "k" ⟨"v", 0, resolveTtl none 168⟩ ∨
     (assocSet (CacheState.memory ⟨[], []⟩) "k" ⟨"v", 0, resolveTtl none 168⟩).length = 1 + 1 ∧
      (cache_set ⟨[], []⟩ "k" "v" 0 none 168 1).memory =
        (assocSet (CacheState.memory ⟨[], []⟩) "k" ⟨"v", 0, resolveTtl none 168⟩).tail) :=
  claim_C3_cache_set ⟨[], []⟩ "k" "v" 0 none 168 1 (by decide) (by decide)

/-- Counterexample to C3 as stated: on a (reachable) cache state whose
memory tier already exceeds `cache_max_size = 1`, re-setting the
oldest-inserted key `"b"` evicts the very entry the call just wrote, so the
just-written value is absent from the memory tier afterwards. -/
theorem claim_C3_counterexample :
    assocFind (cache_set overfullState "b" "vb2" 0 none 168 1).memory "b" = none ∧
    overfullState.memory.length = 2 := by
  constructor
  · decide
  · decide

/-- The over-full memory tier of `overfullState` is reachable through the
public API with `cache_max_size = 1`: set `"a"`, set `"b"` (evicting
`"a"` from memory), then get `"a"` (promoted back from disk without
enforcing the bound). -/
theorem cache_overfull_state_reachable :
    (cache_get (cache_set (cache_set ⟨[], []⟩ "a" "va" 0 none 168 1)
        "b" "vb" 0 none 168 1) "a" 0).2 = overfullState := by
  decide

/-! ## Claim C7 — degradation of the price comparison -/

theorem collectRetailerPrices_nil (results : List (Except Unit (Option RetailerPriceM)))
    (h : ∀ r ∈ results, r = .error ()) : collectRetailerPrices results = [] := by
  have aux : ∀ (l : List (Except Unit (Option RetailerPriceM)))
      (acc : List RetailerPriceM), (∀ r ∈ l, r = .error ()) →
      l.foldl (fun acc r => match r with | .ok (some p) => acc ++ [p] | _ => acc) acc =
        acc := by
    intro l
    induction l with
    | nil => intro acc _; rfl
    | cons hd tl ih =>
        intro acc hall
        have hhd : hd = .error () := hall hd (List.mem_cons_self hd tl)
        rw [List.foldl_cons, hhd]
        exact ih acc (fun r hr => hall r (List.mem_cons_of_mem hd hr))
  exact aux results [] h

/-- C7: when every retailer adapter raises and the external API block yields
nothing, `get_price_comparison` still returns a `PriceComparison` with an
empty prices list and all derived statistics null — the embedding is a total
function, so no exception reaches the caller. -/
theorem claim_C7_degradation (name : String)
    (results : List (Except Unit (Option RetailerPriceM)))
    (globalRes : Except Unit (List RetailerPriceM))
    (h1 : ∀ r ∈ results, r = .error ())
    (h2 : globalRes = .error () ∨ globalRes = .ok []) :
    (get_price_comparison_fresh name results globalRes).prices = [] ∧
    (get_price_comparison_fresh name results globalRes).lowest_price = none ∧
    (get_price_comparison_fresh name results globalRes).highest_price = none ∧
    (get_price_comparison_fresh name results globalRes).average_price = none ∧
    (get_price_comparison_fresh name results globalRes).best_deal_retailer = none ∧
    (get_price_comparison_fresh name results globalRes).deal_quality = none := by
  have hc := collectRetailerPrices_nil results h1
  rcases h2 with h2 | h2 <;> subst h2 <;>
    simp [get_price_comparison_fresh, hc, mkPriceComparison, listMinQ, listMaxQ,
      bestDealRetailer]

/-- Witness for C7: two raising retailer adapters and a raising global
block. -/
theorem claim_C7_witness :
    (get_price_comparison_fresh "W" [.error (), .error ()] (.error ())).prices = [] ∧
    (get_price_comparison_fresh "W" [.error (), .error ()] (.error ())).lowest_price = none ∧
    (get_price_comparison_fresh "W" [.error (), .error ()] (.error ())).highest_price = none ∧
    (get_price_comparison_fresh "W" [.error (), .error ()] (.error ())).average_price = none ∧
    (get_price_comparison_fresh "W" [.error (), .error ()] (.error ())).best_deal_retailer = none ∧
    (get_price_comparison_fresh "W" [.error (), .error ()] (.error ())).deal_quality = none :=
  claim_C7_degradation "W" [.error (), .error ()] (.error ())
    (by
      intro r hr
      rcases List.mem_cons.mp hr with h | h
      · exact h
      · rcases List.mem_cons.mp h with h2 | h2
        · exact h2
        · simp at h2)
    (Or.inl rfl)

/-! ## Claim C4 — deal-quality classification -/

/-- C4: with at least two priced offers, `deal_quality` is `excellent` iff
`spread% = (average − lowest)/average × 100 ≥ 20`, `good` iff
`10 ≤ spread% < 20` and `normal` otherwise (division by a zero average
reads as spread 0, as in the source's `if avg else 0` guard); for the mock
offers priced 100, 120, 200 the statistics are `lowest=100, highest=200,
average=140` and the deal is classified `excellent`. -/
theorem claim_C4_deal_quality :
    (∀ (name : String) (prices : List RetailerPriceM) (low avg : ℚ),
      2 ≤ (prices.filterMap (fun p => p.price_naira)).length →
      (mkPriceComparison name prices).lowest_price = some low →
      (mkPriceComparison name prices).average_price = some avg →
      (((mkPriceComparison name prices).deal_quality = some "excellent" ↔
          20 ≤ (avg - low) / avg * 100) ∧
       ((mkPriceComparison name prices).deal_quality = some "good" ↔
          10 ≤ (avg - low) / avg * 100 ∧ (avg - low) / avg * 100 < 20) ∧
       ((mkPriceComparison name prices).deal_quality = some "normal" ↔
          (avg - low) / avg * 100 < 10))) ∧
    ((mkPriceComparison "iPhone 15" threeOffers).lowest_price = some 100 ∧
     (mkPriceComparison "iPhone 15" threeOffers).highest_price = some 200 ∧
     (mkPriceComparison "iPhone 15" threeOffers).average_price = some 140 ∧
     (mkPriceComparison "iPhone 15" threeOffers).deal_quality = some "excellent") := by
  constructor
  · intro name prices low avg h2 hlow havg
    simp only [mkPriceComparison] at hlow havg ⊢
    rw [if_pos h2] at hlow havg ⊢
    simp only at hlow havg ⊢
    rw [hlow, havg]
    simp only [Option.getD_some]
    have hs : (if avg ≠ 0 then (avg - low) / avg * 100 else 0) =
        (avg - low) / avg * 100 := by
      by_cases h : avg = 0
      · simp [h]
      · rw [if_pos h]
    rw [hs]
    split_ifs with h20 h10
    · refine ⟨⟨fun _ => h20, fun _ => rfl⟩, ?_, ?_⟩
      · constructor
        · intro h; exact absurd (Option.some.inj h) (by decide)
        · rintro ⟨_, hlt⟩; exact absurd h20 (not_le.mpr hlt)
      · constructor
        · intro h; exact absurd (Option.some.inj h) (by decide)
        · intro hlt; linarith
    · refine ⟨?_, ⟨fun _ => ⟨h10, lt_of_not_le h20⟩, fun _ => rfl⟩, ?_⟩
      · constructor
        · intro h; exact absurd (Option.some.inj h) (by decide)
        · intro hge; exact absurd hge h20
      · constructor
        · intro h; exact absurd (Option.some.inj h) (by decide)
        · intro hlt; exact absurd h10 (not_le.mpr hlt)
    · refine ⟨?_, ?_, ⟨fun _ => lt_of_not_le h10, fun _ => rfl⟩⟩
      · constructor
        · intro h; exact absurd (Option.some.inj h) (by decide)
        · intro hge; exact absurd (le_trans (by norm_num : (10:ℚ) ≤ 20) hge) h10
      · constructor
        · intro h; exact absurd (Option.some.inj h) (by decide)
        · rintro ⟨h10', _⟩; exact absurd h10' h10
  · have hvp : threeOffers.filterMap (fun p => p.price_naira) = [100, 120, 200] := rfl
    simp only [mkPriceComparison, hvp]
    norm_num [foldMin, foldMax, listMinQ, listMaxQ, List.foldl_cons, List.foldl_nil,
      min_def, max_def, List.sum_cons, List.sum_nil, bestDealRetailer]

/-- Witness for C4: the general classification applied to the three mock
offers, whose lowest price is 100 and average is 140. -/
theorem claim_C4_witness :
    ((mkPriceComparison "iPhone 15" threeOffers).deal_quality = some "excellent" ↔
      20 ≤ ((140 : ℚ) - 100) / 140 * 100) ∧
    ((mkPriceComparison "iPhone 15" threeOffers).deal_quality = some "good" ↔
      10 ≤ ((140 : ℚ) - 100) / 140 * 100 ∧ ((140 : ℚ) - 100) / 140 * 100 < 20) ∧
    ((mkPriceComparison "iPhone 15" threeOffers).deal_quality = some "normal" ↔
      ((140 : ℚ) - 100) / 140 * 100 < 10) :=
  claim_C4_deal_quality.1 "iPhone 15" threeOffers 100 140 (by decide)
    claim_C4_deal_quality.2.1 claim_C4_deal_quality.2.2.2.1

/-! ## Claims C5 and C9 — the retailer recommendation loop -/

theorem foldMin_le_self : ∀ (xs : List ℚ) (x : ℚ), foldMin x xs ≤ x := by
  intro xs
  induction xs with
  | nil => intro x; exact le_refl x
  | cons y ys ih =>
      intro x
      calc foldMin x (y :: ys) = foldMin (min x y) ys := rfl
        _ ≤ min x y := ih (min x y)
        _ ≤ x := min_le_left x y

theorem foldMin_le_mem : ∀ (xs : List ℚ) (x a : ℚ), a ∈ xs → foldMin x xs ≤ a := by
  intro xs
  induction xs with
  | nil => intro x a ha; simp at ha
  | cons y ys ih =>
      intro x a ha
      rcases List.mem_cons.mp ha with rfl | ha
      · calc foldMin x (a :: ys) = foldMin (min x a) ys := rfl
          _ ≤ min x a := foldMin_le_self ys (min x a)
          _ ≤ a := min_le_right x a
      · exact ih (min x y) a ha

theorem le_foldMax_self : ∀ (xs : List ℚ) (x : ℚ), x ≤ foldMax x xs := by
  intro xs
  induction xs with
  | nil => intro x; exact le_refl x
  | cons y ys ih =>
      intro x
      calc x ≤ max x y := le_max_left x y
        _ ≤ foldMax (max x y) ys := ih (max x y)
        _ = foldMax x (y :: ys) := rfl

theorem le_foldMax_mem : ∀ (xs : List ℚ) (x a : ℚ), a ∈ xs → a ≤ foldMax x xs := by
  intro xs
  induction xs with
  | nil => intro x a ha; simp at ha
  | cons y ys ih =>
      intro x a ha
      rcases List.mem_cons.mp ha with rfl | ha
      · calc a ≤ max x a := le_max_right x a
          _ ≤ foldMax (max x a) ys := le_foldMax_self ys (max x a)
          _ = foldMax x (a :: ys) := rfl
      · exact ih (max x y) a ha

theorem foldMin_const : ∀ (xs : List ℚ) (x : ℚ), (∀ a ∈ xs, a = x) →
    foldMin x xs = x := by
  intro xs
  induction xs with
  | nil => intro x _; rfl
  | cons y ys ih =>
      intro x h
      have hy : y = x := h y (List.mem_cons_self y ys)
      have hstep : foldMin x (y :: ys) = foldMin (min x y) ys := rfl
      rw [hstep, hy, min_self]
      exact ih x (fun a ha => h a (List.mem_cons_of_mem y ha))

theorem foldMax_const : ∀ (xs : List ℚ) (x : ℚ), (∀ a ∈ xs, a = x) →
    foldMax x xs = x := by
  intro xs
  induction xs with
  | nil => intro x _; rfl
  | cons y ys ih =>
      intro x h
      have hy : y = x := h y (List.mem_cons_self y ys)
      have hstep : foldMax x (y :: ys) = foldMax (max x y) ys := rfl
      rw [hstep, hy, max_self]
      exact ih x (fun a ha => h a (List.mem_cons_of_mem y ha))

theorem minPriceOf_le (v0 : RetailerPriceM) (vs : List RetailerPriceM)
    (q : RetailerPriceM) (hq : q ∈ v0 :: vs) : minPriceOf v0 vs ≤ priceOf q := by
  rcases List.mem_cons.mp hq with rfl | hq
  · exact foldMin_le_self _ _
  · exact foldMin_le_mem _ _ _ (List.mem_map_of_mem priceOf hq)

theorem le_maxPriceOf (v0 : RetailerPriceM) (vs : List RetailerPriceM)
    (q : RetailerPriceM) (hq : q ∈ v0 :: vs) : priceOf q ≤ maxPriceOf v0 vs := by
  rcases List.mem_cons.mp hq with rfl | hq
  · exact le_foldMax_self _ _
  · exact le_foldMax_mem _ _ _ (List.mem_map_of_mem priceOf hq)

theorem rangeOf_pos (v0 : RetailerPriceM) (vs : List RetailerPriceM) :
    0 < rangeOf v0 vs := by
  rw [rangeOf]
  split
  · linarith
  · norm_num

/-- Every combined score of an offer in the valid list is non-negative, so
the loop's initial `best_score = -1` is always replaced by the first
offer. -/
theorem combinedScore_nonneg (v0 : RetailerPriceM) (vs : List RetailerPriceM)
    (q : RetailerPriceM) (hq : q ∈ v0 :: vs) :
    0 ≤ combinedScore (minPriceOf v0 vs) (rangeOf v0 vs) q := by
  have hmin := minPriceOf_le v0 vs q hq
  have hmax := le_maxPriceOf v0 vs q hq
  have hrange := rangeOf_pos v0 vs
  have hnorm : (priceOf q - minPriceOf v0 vs) / rangeOf v0 vs ≤ 1 := by
    rw [div_le_one hrange, rangeOf]
    split
    · linarith
    · rename_i h
      have hle := not_lt.mp h
      linarith
  have htrust : (0 : ℚ) ≤ (trust_score_of q.retailer_id : ℚ) := Nat.cast_nonneg _
  simp only [combinedScore]
  rw [if_pos hrange]
  nlinarith [hnorm, htrust]

theorem recSelect_entry (minP range : ℚ) (p0 : RetailerPriceM)
    (rest : List RetailerPriceM) (h : -1 < combinedScore minP range p0) :
    recSelect minP range (p0 :: rest) (none, -1, "") =
      recSelect minP range rest
        (some p0, combinedScore minP range p0, recommendationReasonFor p0 minP) := by
  rw [recSelect]
  rw [if_pos h]

/-- The selection loop started on a current best `b` returns either `b`
itself (no later offer scores strictly higher) or the first later offer that
strictly exceeds every score before it — Python's first-encountered
tie-break. -/
theorem recSelect_spec (minP range : ℚ) :
    ∀ (l : List RetailerPriceM) (b : RetailerPriceM) (rs : String),
    ∃ out rs', recSelect minP range l (some b, combinedScore minP range b, rs) =
        (some out, combinedScore minP range out, rs') ∧
      ((out = b ∧ ∀ q ∈ l, combinedScore minP range q ≤ combinedScore minP range b) ∨
       (∃ l1 l2, l = l1 ++ out :: l2 ∧
         combinedScore minP range b < combinedScore minP range out ∧
         (∀ q ∈ l1, combinedScore minP range q < combinedScore minP range out) ∧
         (∀ q ∈ l2, combinedScore minP range q ≤ combinedScore minP range out))) := by
  intro l
  induction l with
  | nil => intro b rs; exact ⟨b, rs, rfl, Or.inl ⟨rfl, by simp⟩⟩
  | cons p rest ih =>
      intro b rs
      rw [recSelect]
      by_cases hlt : combinedScore minP range b < combinedScore minP range p
      · rw [if_pos hlt]
        obtain ⟨out, rs', heq, hP⟩ := ih p (recommendationReasonFor p minP)
        refine ⟨out, rs', heq, Or.inr ?_⟩
        rcases hP with ⟨rfl, hb⟩ | ⟨l1, l2, hsp, hgt, hl1, hl2⟩
        · exact ⟨[], rest, rfl, hlt, by simp, hb⟩
        · refine ⟨p :: l1, l2, by rw [hsp]; rfl, lt_trans hlt hgt, ?_, hl2⟩
          intro q hq
          rcases List.mem_cons.mp hq with rfl | hq
          · exact hgt
          · exact hl1 q hq
      · rw [if_neg hlt]
        obtain ⟨out, rs', heq, hP⟩ := ih b rs
        refine ⟨out, rs', heq, ?_⟩
        rcases hP with ⟨rfl, hb⟩ | ⟨l1, l2, hsp, hgt, hl1, hl2⟩
        · refine Or.inl ⟨rfl, ?_⟩
          intro q hq
          rcases List.mem_cons.mp hq with rfl | hq
          · exact le_of_not_lt hlt
          · exact hb q hq
        · refine Or.inr ⟨p :: l1, l2, by rw [hsp]; rfl, hgt, ?_, hl2⟩
          intro q hq
          rcases List.mem_cons.mp hq with rfl | hq
          · exact lt_of_le_of_lt (le_of_not_lt hlt) hgt
          · exact hl1 q hq

/-- `get_recommended_retailer` on a non-empty valid-offer list returns a
retailer built from the first offer attaining the maximal combined score;
when all prices are equal the normalized price is 1 for every offer. -/
theorem recommended_retailer_first_max (pc : PriceComparisonM) (v0 : RetailerPriceM)
    (vs : List RetailerPriceM)
    (hv : pc.prices.filter (fun p => p.price_naira.isSome) = v0 :: vs) :
    ∃ (b : RetailerPriceM) (r : RecommendedRetailerM) (l1 l2 : List RetailerPriceM),
      get_recommended_retailer pc = some r ∧
      r.retailer_id = b.retailer_id ∧
      r.retailer_name = b.retailer_name ∧
      r.price_naira = b.price_naira ∧
      v0 :: vs = l1 ++ b :: l2 ∧
      (∀ q ∈ v0 :: vs,
        combinedScore (minPriceOf v0 vs) (rangeOf v0 vs) q ≤
          combinedScore (minPriceOf v0 vs) (rangeOf v0 vs) b) ∧
      (∀ q ∈ l1,
        combinedScore (minPriceOf v0 vs) (rangeOf v0 vs) q <
          combinedScore (minPriceOf v0 vs) (rangeOf v0 vs) b) ∧
      ((∀ q ∈ v0 :: vs, priceOf q = priceOf v0) →
        ∀ q ∈ v0 :: vs,
          combinedScore (minPriceOf v0 vs) (rangeOf v0 vs) q =
            (trust_score_of q.retailer_id : ℚ) / 5 * 0.4 + 0.6) := by
  have hne : pc.prices.isEmpty = false := by
    cases hp : pc.prices with
    | nil => rw [hp] at hv; simp at hv
    | cons a l => rfl
  have hconst : (∀ q ∈ v0 :: vs, priceOf q = priceOf v0) →
      ∀ q ∈ v0 :: vs,
        combinedScore (minPriceOf v0 vs) (rangeOf v0 vs) q =
          (trust_score_of q.retailer_id : ℚ) / 5 * 0.4 + 0.6 := by
    intro hall q hq
    have hmp : minPriceOf v0 vs = priceOf v0 := by
      rw [minPriceOf]
      apply foldMin_const
      intro a ha
      rcases List.mem_map.mp ha with ⟨w, hw, rfl⟩
      exact hall w (List.mem_cons_of_mem v0 hw)
    have hmx : maxPriceOf v0 vs = priceOf v0 := by
      rw [maxPriceOf]
      apply foldMax_const
      intro a ha
      rcases List.mem_map.mp ha with ⟨w, hw, rfl⟩
      exact hall w (List.mem_cons_of_mem v0 hw)
    have hrg : rangeOf v0 vs = 1 := by
      rw [rangeOf, hmp, hmx, if_neg (lt_irrefl (priceOf v0))]
    simp only [combinedScore, hrg, hmp]
    rw [if_pos (by norm_num : (0:ℚ) < 1), hall q hq]
    ring
  rw [get_recommended_retailer, if_neg (by rw [hne]; exact Bool.false_ne_true), hv]
  have h0 : -1 < combinedScore (minPriceOf v0 vs) (rangeOf v0 vs) v0 :=
    lt_of_lt_of_le (by norm_num) (combinedScore_nonneg v0 vs v0 (List.mem_cons_self v0 vs))
  dsimp only
  rw [show foldMin (priceOf v0) (vs.map priceOf) = minPriceOf v0 vs from rfl,
    show foldMax (priceOf v0) (vs.map priceOf) = maxPriceOf v0 vs from rfl,
    show (if minPriceOf v0 vs < maxPriceOf v0 vs then
        maxPriceOf v0 vs - minPriceOf v0 vs else 1) = rangeOf v0 vs from rfl,
    recSelect_entry _ _ _ _ h0]
  obtain ⟨out, rs', heq, hP⟩ :=
    recSelect_spec (minPriceOf v0 vs) (rangeOf v0 vs) vs v0
      (recommendationReasonFor v0 (minPriceOf v0 vs))
  rw [heq]
  rcases hP with ⟨rfl, hb⟩ | ⟨l1, l2, hsp, hgt, hl1, hl2⟩
  · refine ⟨out, _, [], vs, rfl, rfl, rfl, rfl, rfl, ?_, by simp, hconst⟩
    intro q hq
    rcases List.mem_cons.mp hq with rfl | hq
    · exact le_refl _
    · exact hb q hq
  · refine ⟨out, _, v0 :: l1, l2, rfl, rfl, rfl, rfl, by rw [hsp]; rfl, ?_, ?_, hconst⟩
    · intro q hq
      rcases List.mem_cons.mp hq with rfl | hq
      · exact le_of_lt hgt
      · rw [hsp] at hq
        rcases List.mem_append.mp hq with hq | hq
        · exact le_of_lt (hl1 q hq)
        · rcases List.mem_cons.mp hq with rfl | hq
          · exact le_refl _
          · exact hl2 q hq
    · intro q hq
      rcases List.mem_cons.mp hq with rfl | hq
      · exact hgt
      · exact hl1 q hq

/-- The combined scores of the spec's two-offer example. -/
theorem recommended_retailer_example_scores :
    combinedScore 100 20 offerTrust3 = 0.84 ∧ combinedScore 100 20 offerTrust5 = 0.40 := by
  have ht3 : trust_score_of "kilimall" = 3 := by decide
  have ht5 : trust_score_of "slot" = 5 := by decide
  constructor
  · simp only [combinedScore, offerTrust3, priceOf, ht3]
    norm_num
  · simp only [combinedScore, offerTrust5, priceOf, ht5]
    norm_num

/-- The winner on the spec's two-offer example is the first offer. -/
theorem recommended_retailer_example_pick :
    get_recommended_retailer (mkPriceComparison "Z" [offerTrust3, offerTrust5]) =
      some ⟨"Kilimall Nigeria", "kilimall", some 100, 3,
        "Online marketplace - check seller ratings before purchase",
        "Lowest price available - verify seller reputation before purchase"⟩ := by
  have ht3 : trust_score_of "kilimall" = 3 := by decide
  have hpcp : (mkPriceComparison "Z" [offerTrust3, offerTrust5]).prices =
      [offerTrust3, offerTrust5] := rfl
  have hfil : (mkPriceComparison "Z" [offerTrust3, offerTrust5]).prices.filter
      (fun p => p.price_naira.isSome) = [offerTrust3, offerTrust5] := by
    rw [hpcp]; rfl
  rw [get_recommended_retailer, if_neg (by rw [hpcp]; exact Bool.false_ne_true), hfil]
  dsimp only
  have hmin : foldMin (priceOf offerTrust3) ([offerTrust5].map priceOf) = 100 := by
    simp only [foldMin, priceOf, offerTrust3, offerTrust5, List.map, List.foldl]
    norm_num [min_def]
  have hmax : foldMax (priceOf offerTrust3) ([offerTrust5].map priceOf) = 120 := by
    simp only [foldMax, priceOf, offerTrust3, offerTrust5, List.map, List.foldl]
    norm_num [max_def]
  rw [hmin, hmax, if_pos (by norm_num : (100:ℚ) < 120)]
  have hrange : (120 : ℚ) - 100 = 20 := by norm_num
  rw [hrange]
  have hs3 : combinedScore 100 20 offerTrust3 = 0.84 :=
    recommended_retailer_example_scores.1
  have hs5 : combinedScore 100 20 offerTrust5 = 0.40 :=
    recommended_retailer_example_scores.2
  rw [recSelect, if_pos (by rw [hs3]; norm_num)]
  rw [hs3, recSelect, if_neg (by rw [hs5]; norm_num)]
  rw [recSelect]
  have hreason : recommendationReasonFor offerTrust3 100 =
      "Lowest price available - verify seller reputation before purchase" := by
    rw [recommendationReasonFor]
    rw [if_neg, if_pos]
    · simp only [priceOf, offerTrust3]
      norm_num
    · intro h
      rcases h with ⟨_, htr⟩
      rw [offerTrust3] at htr
      simp only [ht3] at htr
      omega
  rw [hreason]
  rfl

/-- C5: every priced offer is scored with
`combined_score = 0.4·(trust/5) + 0.6·normalized_price`, the normalized
price degenerating to 1 when all prices are equal; the offer returned is
the first one attaining the maximal score (strictly greater than everything
before it, at least as great as everything after); on the example offers
(price 100, trust 3) and (price 120, trust 5) the scores are 0.84 and 0.40
and the first offer is selected. -/
theorem claim_C5_recommended_retailer :
    (∀ (pc : PriceComparisonM) (v0 : RetailerPriceM) (vs : List RetailerPriceM),
      pc.prices.filter (fun p => p.price_naira.isSome) = v0 :: vs →
      ∃ (b : RetailerPriceM) (r : RecommendedRetailerM) (l1 l2 : List RetailerPriceM),
        get_recommended_retailer pc = some r ∧
        r.retailer_id = b.retailer_id ∧
        r.retailer_name = b.retailer_name ∧
        r.price_naira = b.price_naira ∧
        v0 :: vs = l1 ++ b :: l2 ∧
        (∀ q ∈ v0 :: vs,
          combinedScore (minPriceOf v0 vs) (rangeOf v0 vs) q ≤
            combinedScore (minPriceOf v0 vs) (rangeOf v0 vs) b) ∧
        (∀ q ∈ l1,
          combinedScore (minPriceOf v0 vs) (rangeOf v0 vs) q <
            combinedScore (minPriceOf v0 vs) (rangeOf v0 vs) b) ∧
        ((∀ q ∈ v0 :: vs, priceOf q = priceOf v0) →
          ∀ q ∈ v0 :: vs,
            combinedScore (minPriceOf v0 vs) (rangeOf v0 vs) q =
              (trust_score_of q.retailer_id : ℚ) / 5 * 0.4 + 0.6)) ∧
    combinedScore 100 20 offerTrust3 = 0.84 ∧
    combinedScore 100 20 offerTrust5 = 0.40 ∧
    get_recommended_retailer (mkPriceComparison "Z" [offerTrust3, offerTrust5]) =
      some ⟨"Kilimall Nigeria", "kilimall", some 100, 3,
        "Online marketplace - check seller ratings before purchase",
        "Lowest price available - verify seller reputation before purchase"⟩ :=
  ⟨recommended_retailer_first_max, recommended_retailer_example_scores.1,
    recommended_retailer_example_scores.2, recommended_retailer_example_pick⟩

/-- Witness for C5: the first-maximum property instantiated on the
two-offer example. -/
theorem claim_C5_witness :
    ∃ (b : RetailerPriceM) (r : RecommendedRetailerM) (l1 l2 : List RetailerPriceM),
      get_recommended_retailer (mkPriceComparison "Z" [offerTrust3, offerTrust5]) =
        some r ∧
      r.retailer_id = b.retailer_id ∧
      r.retailer_name = b.retailer_name ∧
      r.price_naira = b.price_naira ∧
      offerTrust3 :: [offerTrust5] = l1 ++ b :: l2 ∧
      (∀ q ∈ offerTrust3 :: [offerTrust5],
        combinedScore (minPriceOf offerTrust3 [offerTrust5])
            (rangeOf offerTrust3 [offerTrust5]) q ≤
          combinedScore (minPriceOf offerTrust3 [offerTrust5])
            (rangeOf offerTrust3 [offerTrust5]) b) ∧
      (∀ q ∈ l1,
        combinedScore (minPriceOf offerTrust3 [offerTrust5])
            (rangeOf offerTrust3 [offerTrust5]) q <
          combinedScore (minPriceOf offerTrust3 [offerTrust5])
            (rangeOf offerTrust3 [offerTrust5]) b) ∧
      ((∀ q ∈ offerTrust3 :: [offerTrust5], priceOf q = priceOf offerTrust3) →
        ∀ q ∈ offerTrust3 :: [offerTrust5],
          combinedScore (minPriceOf offerTrust3 [offerTrust5])
              (rangeOf offerTrust3 [offerTrust5]) q =
            (trust_score_of q.retailer_id : ℚ) / 5 * 0.4 + 0.6) :=
  claim_C5_recommended_retailer.1 (mkPriceComparison "Z" [offerTrust3, offerTrust5])
    offerTrust3 [offerTrust5] (by rfl)

/-- Any returned recommendation carries exactly the trust data the static
table assigns to its retailer id. -/
theorem get_recommended_retailer_fields (pc : PriceComparisonM)
    (r : RecommendedRetailerM) (h : get_recommended_retailer pc = some r) :
    r.trust_score = trust_score_of r.retailer_id ∧
    r.trust_note = trust_note_of r.retailer_id := by
  rw [get_recommended_retailer] at h
  split at h
  · exact absurd h (by simp)
  · split at h
    · exact absurd h (by simp)
    · dsimp only at h
      split at h
      · injection h with h'
        subst h'
        exact ⟨rfl, rfl⟩
      · exact absurd h (by simp)

/-- C9: an offer whose retailer id is absent from the static trust table is
scored with the default trust 3 and empty trust note, still yields a
recommendation (it is never dropped), and when such an offer wins, the
reported recommendation carries trust 3 and an empty note. -/
theorem claim_C9_unknown_retailer :
    (∀ (pc : PriceComparisonM) (p : RetailerPriceM),
      p ∈ pc.prices → p.price_naira.isSome = true →
      retailerTrustTable.find? (fun e => e.1 == p.retailer_id) = none →
      trust_score_of p.retailer_id = 3 ∧ trust_note_of p.retailer_id = "" ∧
      (∃ r, get_recommended_retailer pc = some r)) ∧
    (∀ (pc : PriceComparisonM) (r : RecommendedRetailerM),
      get_recommended_retailer pc = some r →
      retailerTrustTable.find? (fun e => e.1 == r.retailer_id) = none →
      r.trust_score = 3 ∧ r.trust_note = "") := by
  constructor
  · intro pc p hp hsome hfind
    refine ⟨by rw [trust_score_of, hfind], by rw [trust_note_of, hfind], ?_⟩
    have hmem : p ∈ pc.prices.filter (fun q => q.price_naira.isSome) :=
      List.mem_filter.mpr ⟨hp, hsome⟩
    cases hfil : pc.prices.filter (fun q => q.price_naira.isSome) with
    | nil => rw [hfil] at hmem; simp at hmem
    | cons v0 vs =>
        obtain ⟨b, r, l1, l2, hr, _⟩ := recommended_retailer_first_max pc v0 vs hfil
        exact ⟨r, hr⟩
  · intro pc r h hfind
    obtain ⟨hts, htn⟩ := get_recommended_retailer_fields pc r h
    rw [hts, htn, trust_score_of, trust_note_of, hfind]
    exact ⟨rfl, rfl⟩

/-- Witness for C9: a single offer from the external source `amazon`,
which has no entry in the Nigerian retailer table. -/
theorem claim_C9_witness :
    trust_score_of "amazon" = 3 ∧ trust_note_of "amazon" = "" ∧
    (∃ r, get_recommended_retailer
      (mkPriceComparison "MacBook Air" [⟨"amazon", "Amazon (US)", some 100⟩]) = some r) :=
  claim_C9_unknown_retailer.1
    (mkPriceComparison "MacBook Air" [⟨"amazon", "Amazon (US)", some 100⟩])
    ⟨"amazon", "Amazon (US)", some 100⟩
    (by rw [show (mkPriceComparison "MacBook Air"
        [⟨"amazon", "Amazon (US)", some 100⟩]).prices =
        [⟨"amazon", "Amazon (US)", some 100⟩] from rfl]
        exact List.mem_cons_self _ _)
    rfl (by decide)

/-! ## Claim C1 — the purchase-recommendation priority order -/

theorem after_timing_spec (pc : Option PriceComparisonM) (dq : Option String) :
    ((recommendation_after_timing pc dq).2 ≠ []) ∧
    (local_deal_signal pc = true → (recommendation_after_timing pc dq).1 = "buy_now") ∧
    (local_deal_signal pc = false → dq = some "good" →
      (recommendation_after_timing pc dq).1 = "buy_now") ∧
    (local_deal_signal pc = false → dq = some "limited" →
      (recommendation_after_timing pc dq).1 = "consider_alternatives") ∧
    (local_deal_signal pc = false → dq ≠ some "good" → dq ≠ some "limited" →
      (recommendation_after_timing pc dq).1 = "consider_alternatives") := by
  rw [recommendation_after_timing]
  by_cases h1 : local_deal_signal pc <;> by_cases h2 : dq = some "good" <;>
    by_cases h3 : dq = some "limited" <;> simp_all

/-- C1 (amended): the priority order of the purchase recommendation —
critical red flags give `avoid`; else an explicit buy/wait timing signal
decides; else a comparison with a known lowest price whose deal quality is
`excellent` *or not yet classified* (`None`) gives `buy_now`; else data
quality `good` gives `buy_now`, `limited` gives `consider_alternatives`,
and anything else the conservative `consider_alternatives`; every outcome
carries a non-empty reason list. -/
theorem claim_C1_purchase_recommendation (t : Option TimingAdviceM)
    (r : Option RedFlagReportM) (pc : Option PriceComparisonM) (dq : Option String) :
    ((compute_purchase_recommendation t r pc dq).2 ≠ []) ∧
    (critical_flag r = true → (compute_purchase_recommendation t r pc dq).1 = "avoid") ∧
    (critical_flag r = false → timing_signal t = some "buy_now" →
      (compute_purchase_recommendation t r pc dq).1 = "buy_now") ∧
    (critical_flag r = false → timing_signal t = some "wait" →
      (compute_purchase_recommendation t r pc dq).1 = "wait") ∧
    (critical_flag r = false → timing_explicit t = false → local_deal_signal pc = true →
      (compute_purchase_recommendation t r pc dq).1 = "buy_now") ∧
    (critical_flag r = false → timing_explicit t = false → local_deal_signal pc = false →
      dq = some "good" → (compute_purchase_recommendation t r pc dq).1 = "buy_now") ∧
    (critical_flag r = false → timing_explicit t = false → local_deal_signal pc = false →
      dq = some "limited" →
      (compute_purchase_recommendation t r pc dq).1 = "consider_alternatives") ∧
    (critical_flag r = false → timing_explicit t = false → local_deal_signal pc = false →
      dq ≠ some "good" → dq ≠ some "limited" →
      (compute_purchase_recommendation t r pc dq).1 = "consider_alternatives") := by
  obtain ⟨ha1, ha2, ha3, ha4, ha5⟩ := after_timing_spec pc dq
  by_cases hc : critical_flag r
  · simp [compute_purchase_recommendation, hc]
  · cases t with
    | none =>
        simp only [compute_purchase_recommendation, hc, Bool.false_eq_true, if_false,
          timing_signal, timing_explicit, Option.map_none]
        refine ⟨ha1, by simp, by simp, by simp, fun _ _ => ha2, fun _ _ => ha3,
          fun _ _ => ha4, fun _ _ => ha5⟩
    | some adv =>
        by_cases hb : adv.recommendation = "buy_now"
        · simp [compute_purchase_recommendation, hc, hb, timing_signal, timing_explicit]
        · by_cases hw : adv.recommendation = "wait"
          · simp [compute_purchase_recommendation, hc, hb, hw, timing_signal,
              timing_explicit]
          · simp only [compute_purchase_recommendation, hc, Bool.false_eq_true, if_false,
              timing_signal, timing_explicit, Option.map_some]
            rw [if_neg (by simp [hb]), if_neg (by simp [hw])]
            refine ⟨ha1, by simp, ?_, ?_, fun _ _ => ha2, fun _ _ => ha3,
              fun _ _ => ha4, fun _ _ => ha5⟩
            · intro _ hsig
              exact absurd (Option.some.inj hsig) hb
            · intro _ hsig
              exact absurd (Option.some.inj hsig) hw

/-- Witness for C1: a report with one high-severity flag forces `avoid`. -/
theorem claim_C1_witness :
    (compute_purchase_recommendation none (some ⟨["high"]⟩) none none).1 = "avoid" :=
  (claim_C1_purchase_recommendation none (some ⟨["high"]⟩) none none).2.1 (by decide)

/-- Counterexample to C1 as stated: a comparison holding a single priced
offer has a known lowest price but a `None` deal quality; the code takes
the price-signal branch and answers `buy_now`, while the claimed priority
order (deal quality classified `excellent`, else the data-quality default)
answers `consider_alternatives` for data quality `limited`. -/
theorem claim_C1_counterexample :
    (compute_purchase_recommendation none none (some onePricePC) (some "limited")).1 ≠
      spec_purchase_recommendation none none (some onePricePC) (some "limited") ∧
    (compute_purchase_recommendation none none (some onePricePC) (some "limited")).1 =
      "buy_now" ∧
    spec_purchase_recommendation none none (some onePricePC) (some "limited") =
      "consider_alternatives" := by
  decide

/-! ## Claim C2 — the price-confidence label -/

/-- C2 (amended): `price_confidence` is `high` iff an explicit global price,
at least two retailer offers, and a resolved Naira price are all present;
`medium` iff not `high` but a global price or *at least one* retailer offer
is present; `low` otherwise. -/
theorem claim_C2_price_confidence (g : Option ℚ) (pc : Option PriceComparisonM)
    (pn : Option ℚ) :
    (compute_price_confidence g pc pn = "high" ↔
      (g.isSome = true ∧ 2 ≤ local_offer_count pc ∧ pn.isSome = true)) ∧
    (compute_price_confidence g pc pn = "medium" ↔
      (¬(g.isSome = true ∧ 2 ≤ local_offer_count pc ∧ pn.isSome = true) ∧
       (g.isSome = true ∨ has_local_offers pc = true))) ∧
    (compute_price_confidence g pc pn = "low" ↔
      (g.isSome = false ∧ has_local_offers pc = false)) := by
  rw [compute_price_confidence]
  by_cases h1 : g.isSome <;> by_cases h2 : 2 ≤ local_offer_count pc <;>
    by_cases h3 : pn.isSome <;> by_cases h4 : has_local_offers pc <;>
      simp [h1, h2, h3, h4]

/-- Counterexample to C2 as stated: with no global price and exactly one
offer, the code answers `medium` where the claim's two-condition rule says
`low`; with a global price, two (unpriced) offers and no resolved Naira
price, the code answers `medium` where the claim says `high`. -/
theorem claim_C2_counterexample :
    (compute_price_confidence none (some onePricePC) none ≠
       spec_price_confidence none (some onePricePC) ∧
     compute_price_confidence none (some onePricePC) none = "medium" ∧
     spec_price_confidence none (some onePricePC) = "low") ∧
    (compute_price_confidence (some 5) (some twoUnpricedPC) none ≠
       spec_price_confidence (some 5) (some twoUnpricedPC) ∧
     compute_price_confidence (some 5) (some twoUnpricedPC) none = "medium" ∧
     spec_price_confidence (some 5) (some twoUnpricedPC) = "high") := by
  decide

/-! ## Claim C6 — the numeric-token image filter -/

theorem token_isNumeric (t : List Char) (hd : t.any Char.isDigit = true) :
    isNumericToken t = true := by
  cases t with
  | nil => simp at hd
  | cons c cs =>
      cases cs with
      | nil =>
          simp only [List.any_cons, List.any_nil, Bool.or_false] at hd
          simp [isNumericToken, hd]
      | cons c2 cs2 =>
          simp only [isNumericToken, Bool.or_eq_true, Bool.and_eq_true, decide_eq_true_eq]
          right
          refine ⟨hd, ?_⟩
          simp only [List.length_cons]
          omega

theorem numericTokenPresent_false (nt combined : List Char)
    (h : containsTok nt combined = false) :
    numericTokenPresent nt combined = false := by
  rw [numericTokenPresent, h, Bool.false_or]
  cases hall : (wordsBy wordSeparator combined).any (fun w => containsTok nt w) with
  | false => rfl
  | true =>
      exfalso
      rcases List.any_eq_true.mp hall with ⟨w, hw, hcw⟩
      have hinf : nt <:+: combined :=
        ((containsTok_iff_occurs nt w).mp hcw).trans (wordsBy_fragment _ _ _ hw)
      rw [(containsTok_iff_occurs nt combined).mpr hinf] at h
      exact Bool.true_eq_false.mp h

/-- C6: a candidate is rejected whenever some digit-bearing token of the
product name does not occur in the lowercased URL+caption text, regardless
of any other signal. -/
theorem claim_C6_numeric_token_filter (img_url alt_text product_name : String)
    (t : List Char) (ht : t ∈ name_tokens product_name)
    (hd : t.any Char.isDigit = true)
    (hnc : containsTok t (combinedText img_url alt_text) = false) :
    is_product_image img_url alt_text product_name = false := by
  rw [is_product_image]
  by_cases hurl : img_url.data = []
  · rw [if_pos hurl]
  · rw [if_neg hurl]
    dsimp only
    by_cases hlife : lifestyle_keywords.any
        (fun k => containsTok k.data (combinedText img_url alt_text)) = true
    · rw [if_pos hlife]
    · rw [if_neg hlife]
      have hmem : t ∈ (name_tokens product_name).filter isNumericToken :=
        List.mem_filter.mpr ⟨ht, token_isNumeric t hd⟩
      have hall : ((name_tokens product_name).filter isNumericToken).all
          (fun nt => numericTokenPresent nt (combinedText img_url alt_text)) = false := by
        rw [List.all_eq_false]
        exact ⟨t, hmem, by rw [numericTokenPresent_false t _ hnc]; simp⟩
      rw [hall]
      simp

/-- Witness for C6: for the product `iPhone 15 Pro`, a candidate whose
URL+caption nowhere contains `15` is rejected. -/
theorem claim_C6_witness :
    is_product_image "https://example.com/iphone-pro.jpg" "apple iphone pro"
      "iPhone 15 Pro" = false :=
  claim_C6_numeric_token_filter "https://example.com/iphone-pro.jpg"
    "apple iphone pro" "iPhone 15 Pro" ['1', '5'] (by decide) (by decide) (by decide)

/-! ## Claim C10 — no caching of empty image results -/

/-- C10: when the candidate list is empty after dedup/ranking, the fetch
returns the empty list, the cache is untouched, and the key is still absent
afterwards, so an immediately repeated call re-runs the whole pipeline
instead of being served a cached empty result. -/
theorem claim_C10_no_empty_cache (score : ProductImageM → ℤ)
    (cache : List (String × List ProductImageM)) (product_name : String)
    (candidates : List ProductImageM) (max_images : Nat)
    (hmiss : assocFind cache ("images_" ++ product_name) = none)
    (hempty : rank_images score (dedupImages candidates) = []) :
    fetch_product_images score cache product_name candidates max_images = ([], cache) ∧
    assocFind (fetch_product_images score cache product_name candidates max_images).2
      ("images_" ++ product_name) = none := by
  have h1 : fetch_product_images score cache product_name candidates max_images =
      ([], cache) := by
    rw [fetch_product_images]
    simp [hmiss, hempty]
  exact ⟨h1, by rw [h1]; exact hmiss⟩

/-- Witness for C10: an empty cache and one candidate with an empty URL,
which deduplication drops. -/
theorem claim_C10_witness :
    fetch_product_images (fun _ => 0) [] "iPhone" [⟨"", none⟩] 5 = ([], []) ∧
    assocFind (fetch_product_images (fun _ => 0) [] "iPhone" [⟨"", none⟩] 5).2
      ("images_" ++ "iPhone") = none :=
  claim_C10_no_empty_cache (fun _ => 0) [] "iPhone" [⟨"", none⟩] 5 rfl (by decide)

end ReviewAI
